import Mathlib

/-!
Verification development for the pcf-diffusion repository.

We shallowly embed the trainer code of `src/trainers/diffpcfgan_trainer.py`
(class `DiffPCFGANTrainer`).  Tensors are modelled as total entry functions
over natural-number indices together with explicit dimension fields; entries
outside the declared dimensions are junk and no theorem refers to them.
Real-valued tensor entries are modelled by rationals, except the
teacher-forcing probability schedule which needs `Real.cos`.

External collaborators that live outside the embedded sources
(`ContinuousDiffusionProcess.backward_sample` / `forward_sample` /
`_perturbation_kernel` / `_compute_drift_and_diffusion`, the score network
and the PCF discriminator distance) are taken as abstract function
parameters, so every theorem quantifies over them.
-/

namespace PcfDiffusion

/-- A rank-3 tensor of shape `(d0, d1, d2)` with rational entries. -/
structure Tensor3 where
  d0 : ℕ
  d1 : ℕ
  d2 : ℕ
  entry : ℕ → ℕ → ℕ → ℚ

/-- A rank-4 tensor of shape `(d0, d1, d2, d3)` with rational entries. -/
structure Tensor4 where
  d0 : ℕ
  d1 : ℕ
  d2 : ℕ
  d3 : ℕ
  entry : ℕ → ℕ → ℕ → ℕ → ℚ

/-- `torch.linspace(0.0, 1.0, steps)` read at index `i`: evenly spaced values
from 0 to 1 inclusive; for a single step torch returns just the start point. -/
def linspace01 (steps i : ℕ) : ℚ :=
  if steps ≤ 1 then 0 else (i : ℚ) / ((steps : ℚ) - 1)

/-- `data.flatten(2, 3)`: merge the last two axes `(L, D)` of a rank-4 tensor
into one axis of size `L * D`, row-major (`f = l * D + d`). -/
def flatten23 (x : Tensor4) : Tensor3 :=
  ⟨x.d0, x.d1, x.d2 * x.d3, fun s n f => x.entry s n (f / x.d3) (f % x.d3)⟩

/-- `torch.cat((zeros, data), dim=0)` with a single zero row: prepend an
all-zero state at index 0 of the leading axis. -/
def catZeroRow (x : Tensor3) : Tensor3 :=
  ⟨x.d0 + 1, x.d1, x.d2, fun s n f => if s = 0 then 0 else x.entry (s - 1) n f⟩

/-- `torch.cat((data, diffusion_times), dim=-1)`: append one feature channel
holding `linspace(0, 1, data.shape[0])` indexed by the leading axis. -/
def catTimeChannel (x : Tensor3) : Tensor3 :=
  ⟨x.d0, x.d1, x.d2 + 1, fun s n f =>
    if f = x.d2 then linspace01 x.d0 s else x.entry s n f⟩

/-- `data.transpose(0, 1)`: swap the two leading axes. -/
def transpose01 (x : Tensor3) : Tensor3 :=
  ⟨x.d1, x.d0, x.d2, fun n s f => x.entry s n f⟩

/-- `DiffPCFGANTrainer._flat_add_time_transpose_and_add_zero`: receive data of
shape `(S, N, L, D)`, flatten the last two axes, prepend a zero state, append
the diffusion-time channel, and swap the batch and diffusion axes. -/
def flat_add_time_transpose_and_add_zero (x : Tensor4) : Tensor3 :=
  transpose01 (catTimeChannel (catZeroRow (flatten23 x)))

/-- `traj.flip(0)`: reverse a rank-4 tensor along its leading (step) axis. -/
def flip0 (x : Tensor4) : Tensor4 :=
  ⟨x.d0, x.d1, x.d2, x.d3, fun s n l d => x.entry (x.d0 - 1 - s) n l d⟩

/-- `DiffPCFGANTrainer.get_noise_vector(shape, device)`: a `torch.randn`
tensor of the requested shape.  The standard-normal draw is modelled by an
entry oracle supplied by the caller. -/
def get_noise_vector (randnOracle : ℕ → ℕ → ℕ → ℚ) (n l d : ℕ) : Tensor3 :=
  ⟨n, l, d, randnOracle⟩

/-- `DiffPCFGANTrainer.forward` (also reached through its alias
`get_backward_path`).  The external collaborator
`diffusion_process.backward_sample` is the abstract parameter `backSample`,
taking the terminal noise, the teacher-forcing probability and the optional
forcing trajectory.  The failing `assert` is modelled by returning `none`;
when `noise_start_seq_z` is absent the terminal noise is synthesized from the
shape triple, and the sampled trajectory is flipped along the step axis. -/
def trainerForward (backSample : Tensor3 → ℚ → Option Tensor4 → Tensor4)
    (randnOracle : ℕ → ℕ → ℕ → ℚ)
    (num_seq seq_len dim_seq : Option ℕ)
    (noise_start_seq_z : Option Tensor3)
    (proba_teacher_forcing : ℚ)
    (teacher_forcing_inputs : Option Tensor4) : Option Tensor4 :=
  if (num_seq.isSome && seq_len.isSome && dim_seq.isSome)
      || noise_start_seq_z.isSome then
    let z : Tensor3 :=
      match noise_start_seq_z with
      | some z => z
      | none =>
          get_noise_vector randnOracle (num_seq.getD 0) (seq_len.getD 0)
            (dim_seq.getD 0)
    some (flip0 (backSample z proba_teacher_forcing teacher_forcing_inputs))
  else
    none

/-- Concrete sample trajectory of shape `(S, N, L, D) = (2, 1, 1, 1)` used to
witness the feature-transform theorem. -/
def sampleTraj : Tensor4 := ⟨2, 1, 1, 1, fun s _ _ _ => (s : ℚ)⟩

/-- C1: for every trajectory tensor of shape `(S, N, L, D)` (with at least one
step), `_flat_add_time_transpose_and_add_zero` returns a tensor of shape
`(N, S+1, L*D+1)` whose time channel (feature index `L*D`) is the linspace
`j / S` from 0 to 1 inclusive over the `S+1` steps, whose first step-row is
zero on all non-time channels, and whose entry `(n, s+1, l*D+d)` equals the
input entry `(s, n, l, d)`. -/
theorem flat_transform_spec (x : Tensor4) (hS : 0 < x.d0) :
    ((flat_add_time_transpose_and_add_zero x).d0 = x.d1 ∧
      (flat_add_time_transpose_and_add_zero x).d1 = x.d0 + 1 ∧
      (flat_add_time_transpose_and_add_zero x).d2 = x.d2 * x.d3 + 1) ∧
    (∀ n j, j ≤ x.d0 →
      (flat_add_time_transpose_and_add_zero x).entry n j (x.d2 * x.d3)
        = (j : ℚ) / (x.d0 : ℚ)) ∧
    (∀ n f, f < x.d2 * x.d3 →
      (flat_add_time_transpose_and_add_zero x).entry n 0 f = 0) ∧
    (∀ s n l d, s < x.d0 → l < x.d2 → d < x.d3 →
      (flat_add_time_transpose_and_add_zero x).entry n (s + 1) (l * x.d3 + d)
        = x.entry s n l d) := by
  refine ⟨⟨rfl, rfl, rfl⟩, ?_, ?_, ?_⟩
  · intro n j hj
    have h1 : ¬ (x.d0 + 1 ≤ 1) := by omega
    have h2 : ((x.d0 + 1 : ℕ) : ℚ) - 1 = (x.d0 : ℚ) := by push_cast; ring
    simp [flat_add_time_transpose_and_add_zero, transpose01, catTimeChannel,
      catZeroRow, flatten23, linspace01, h1, h2]
  · intro n f hf
    have hne : f ≠ x.d2 * x.d3 := Nat.ne_of_lt hf
    simp [flat_add_time_transpose_and_add_zero, transpose01, catTimeChannel,
      catZeroRow, flatten23, hne]
  · intro s n l d hs hl hd
    have hD : 0 < x.d3 := by omega
    have hlt : l * x.d3 + d < x.d2 * x.d3 := by
      calc l * x.d3 + d < l * x.d3 + x.d3 := by omega
        _ = (l + 1) * x.d3 := by ring
        _ ≤ x.d2 * x.d3 := Nat.mul_le_mul_right _ (by omega)
    have hne : l * x.d3 + d ≠ x.d2 * x.d3 := Nat.ne_of_lt hlt
    have hdiv : (l * x.d3 + d) / x.d3 = l := by
      rw [mul_comm, Nat.mul_add_div hD, Nat.div_eq_of_lt hd, Nat.add_zero]
    have hmod : (l * x.d3 + d) % x.d3 = d := by
      rw [mul_comm, Nat.mul_add_mod, Nat.mod_eq_of_lt hd]
    simp [flat_add_time_transpose_and_add_zero, transpose01, catTimeChannel,
      catZeroRow, flatten23, hne, hdiv, hmod]

/-- Witness for `flat_transform_spec` at the concrete trajectory `sampleTraj`. -/
theorem flat_transform_spec_witness :
    0 < sampleTraj.d0 ∧
    (((flat_add_time_transpose_and_add_zero sampleTraj).d0 = sampleTraj.d1 ∧
      (flat_add_time_transpose_and_add_zero sampleTraj).d1 = sampleTraj.d0 + 1 ∧
      (flat_add_time_transpose_and_add_zero sampleTraj).d2
        = sampleTraj.d2 * sampleTraj.d3 + 1) ∧
    (∀ n j, j ≤ sampleTraj.d0 →
      (flat_add_time_transpose_and_add_zero sampleTraj).entry n j
          (sampleTraj.d2 * sampleTraj.d3)
        = (j : ℚ) / (sampleTraj.d0 : ℚ)) ∧
    (∀ n f, f < sampleTraj.d2 * sampleTraj.d3 →
      (flat_add_time_transpose_and_add_zero sampleTraj).entry n 0 f = 0) ∧
    (∀ s n l d, s < sampleTraj.d0 → l < sampleTraj.d2 → d < sampleTraj.d3 →
      (flat_add_time_transpose_and_add_zero sampleTraj).entry n (s + 1)
          (l * sampleTraj.d3 + d)
        = sampleTraj.entry s n l d)) :=
  ⟨by decide, flat_transform_spec sampleTraj (by decide)⟩

/-- C2 counterexample: a call that supplies BOTH input modes (the complete
shape triple and a terminal-noise tensor) succeeds, refuting the claim that
exactly one of the two input modes must be satisfied for the call to
succeed. -/
theorem forward_both_modes_succeed :
    (trainerForward
        (fun z _ _ => ⟨1, z.d0, z.d1, z.d2, fun _ n l d => z.entry n l d⟩)
        (fun _ _ _ => 0) (some 8) (some 16) (some 3)
        (some ⟨8, 16, 3, fun _ _ _ => 0⟩) 0 none).isSome = true := rfl

/-- C2 (amended): `forward` fails exactly when neither the full shape triple
nor a terminal-noise tensor is supplied (at least one input mode is
required); when only the shape triple is supplied it synthesizes a
terminal-noise tensor of shape `(num_seq, seq_len, dim_seq)` from the
standard-normal oracle and samples backward from it; supplying a
terminal-noise tensor always succeeds. -/
theorem forward_input_modes (backSample : Tensor3 → ℚ → Option Tensor4 → Tensor4)
    (randnOracle : ℕ → ℕ → ℕ → ℚ) (ptf : ℚ) (tfi : Option Tensor4) :
    (trainerForward backSample randnOracle none none none none ptf tfi = none) ∧
    (∀ n, trainerForward backSample randnOracle (some n) none none none ptf tfi
      = none) ∧
    (∀ n l, trainerForward backSample randnOracle (some n) (some l) none none
      ptf tfi = none) ∧
    (∀ n l d,
      trainerForward backSample randnOracle (some n) (some l) (some d) none
          ptf tfi
        = some (flip0 (backSample (get_noise_vector randnOracle n l d) ptf tfi))
      ∧ (get_noise_vector randnOracle n l d).d0 = n
      ∧ (get_noise_vector randnOracle n l d).d1 = l
      ∧ (get_noise_vector randnOracle n l d).d2 = d) ∧
    (∀ z, (trainerForward backSample randnOracle none none none (some z)
      ptf tfi).isSome = true) :=
  ⟨rfl, fun _ => rfl, fun _ _ => rfl,
    fun _ _ _ => ⟨rfl, rfl, rfl, rfl⟩, fun _ => rfl⟩

/-- C10: when both input modes are supplied, the call succeeds, the shape
triple and the standard-normal oracle are ignored, and the result depends
only on the supplied terminal-noise tensor (plus the teacher-forcing
arguments): no fresh terminal noise is synthesized. -/
theorem forward_both_modes_ignore_triple
    (backSample : Tensor3 → ℚ → Option Tensor4 → Tensor4)
    (r r' : ℕ → ℕ → ℕ → ℚ) (n l d n' l' d' : ℕ) (z : Tensor3) (ptf : ℚ)
    (tfi : Option Tensor4) :
    trainerForward backSample r (some n) (some l) (some d) (some z) ptf tfi
      = some (flip0 (backSample z ptf tfi)) ∧
    trainerForward backSample r (some n) (some l) (some d) (some z) ptf tfi
      = trainerForward backSample r' (some n') (some l') (some d') (some z)
          ptf tfi :=
  ⟨rfl, rfl⟩

/-- C9: `forward` returns exactly the flip along the step axis of the
backward sampler's output, so index `i` of the returned trajectory reads the
sampler's output at index `d0 - 1 - i`; in particular index 0 is the last
state the sampler generated (the cleanest one). -/
theorem forward_flips_backward_sample
    (backSample : Tensor3 → ℚ → Option Tensor4 → Tensor4)
    (r : ℕ → ℕ → ℕ → ℚ) (z : Tensor3) (ptf : ℚ) (tfi : Option Tensor4) :
    trainerForward backSample r none none none (some z) ptf tfi
      = some (flip0 (backSample z ptf tfi)) ∧
    ∀ i n l d, (flip0 (backSample z ptf tfi)).entry i n l d
        = (backSample z ptf tfi).entry
            ((backSample z ptf tfi).d0 - 1 - i) n l d :=
  ⟨rfl, fun _ _ _ _ => rfl⟩

/-- `DiffPCFGANTrainer.proba_teacher_forcing`: the property computes
`0.5 * (1 + cos(current_epoch * pi / (max_epochs // 2)))`, with `//` the
integer division of Python.  Noncomputable because it uses the real cosine,
as the code uses the floating-point cosine. -/
noncomputable def proba_teacher_forcing (maxEpochs currentEpoch : ℕ) : ℝ :=
  (1 / 2) * (1 + Real.cos ((currentEpoch : ℝ) * Real.pi / ((maxEpochs / 2 : ℕ) : ℝ)))

/-- C3 counterexample: with `max_epochs = 4` the schedule is NOT monotonically
decreasing over the epochs and is not 0 at the last epoch (epoch 3): it
reaches 0 at epoch 2 = max_epochs // 2 and then rises back to 1/2 at
epoch 3. -/
theorem proba_teacher_forcing_not_monotone :
    proba_teacher_forcing 4 2 < proba_teacher_forcing 4 3 ∧
    proba_teacher_forcing 4 3 ≠ 0 := by
  have e2 : proba_teacher_forcing 4 2 = 0 := by
    unfold proba_teacher_forcing
    norm_num
  have e3 : proba_teacher_forcing 4 3 = 1 / 2 := by
    unfold proba_teacher_forcing
    norm_num
    have h : (3 : ℝ) * Real.pi / 2 = Real.pi / 2 + Real.pi := by ring
    rw [h, Real.cos_add_pi, Real.cos_pi_div_two]
    ring
  rw [e2, e3]
  norm_num

/-- C3 (amended): the schedule starts at 1 at epoch 0, decreases
monotonically to 0 at epoch `max_epochs // 2` (not at the last epoch: past
the halfway point the cosine rises again, see the counterexample), and every
value lies in `[0, 1]`. -/
theorem proba_teacher_forcing_cosine_schedule (maxEpochs : ℕ)
    (hM : 0 < maxEpochs / 2) :
    proba_teacher_forcing maxEpochs 0 = 1 ∧
    proba_teacher_forcing maxEpochs (maxEpochs / 2) = 0 ∧
    (∀ e1 e2, e1 ≤ e2 → e2 ≤ maxEpochs / 2 →
      proba_teacher_forcing maxEpochs e2 ≤ proba_teacher_forcing maxEpochs e1) ∧
    (∀ e, 0 ≤ proba_teacher_forcing maxEpochs e ∧
      proba_teacher_forcing maxEpochs e ≤ 1) := by
  have hMr : (0 : ℝ) < ((maxEpochs / 2 : ℕ) : ℝ) := by exact_mod_cast hM
  refine ⟨?_, ?_, ?_, ?_⟩
  · unfold proba_teacher_forcing
    norm_num
  · unfold proba_teacher_forcing
    have h : ((maxEpochs / 2 : ℕ) : ℝ) * Real.pi / ((maxEpochs / 2 : ℕ) : ℝ)
        = Real.pi := by
      field_simp
    rw [h, Real.cos_pi]
    ring
  · intro e1 e2 h12 h2M
    unfold proba_teacher_forcing
    have hx : (0 : ℝ) ≤ (e1 : ℝ) * Real.pi / ((maxEpochs / 2 : ℕ) : ℝ) := by
      positivity
    have hy : (e2 : ℝ) * Real.pi / ((maxEpochs / 2 : ℕ) : ℝ) ≤ Real.pi := by
      rw [div_le_iff₀ hMr]
      have : (e2 : ℝ) ≤ ((maxEpochs / 2 : ℕ) : ℝ) := by exact_mod_cast h2M
      nlinarith [Real.pi_pos]
    have hxy : (e1 : ℝ) * Real.pi / ((maxEpochs / 2 : ℕ) : ℝ)
        ≤ (e2 : ℝ) * Real.pi / ((maxEpochs / 2 : ℕ) : ℝ) := by
      have : (e1 : ℝ) ≤ (e2 : ℝ) := by exact_mod_cast h12
      gcongr
    have := Real.cos_le_cos_of_nonneg_of_le_pi hx hy hxy
    linarith
  · intro e
    unfold proba_teacher_forcing
    have h1 := Real.neg_one_le_cos ((e : ℝ) * Real.pi / ((maxEpochs / 2 : ℕ) : ℝ))
    have h2 := Real.cos_le_one ((e : ℝ) * Real.pi / ((maxEpochs / 2 : ℕ) : ℝ))
    constructor <;> linarith

/-- Witness for `proba_teacher_forcing_cosine_schedule` at `max_epochs = 4`. -/
theorem proba_teacher_forcing_cosine_schedule_witness :
    0 < 4 / 2 ∧
    (proba_teacher_forcing 4 0 = 1 ∧
    proba_teacher_forcing 4 (4 / 2) = 0 ∧
    (∀ e1 e2, e1 ≤ e2 → e2 ≤ 4 / 2 →
      proba_teacher_forcing 4 e2 ≤ proba_teacher_forcing 4 e1) ∧
    (∀ e, 0 ≤ proba_teacher_forcing 4 e ∧ proba_teacher_forcing 4 e ≤ 1)) :=
  ⟨by decide, proba_teacher_forcing_cosine_schedule 4 (by decide)⟩

/-! ## Training-step phase structure and gradient scoping

`DiffPCFGANTrainer.training_step` first calls `_training_step_gen` once and
then, unless `use_fixed_measure_discriminator_pcfd` is set, calls
`_training_step_disc` in a loop of `D_steps_per_G_step` iterations.  We model
the control flow as the list of phases executed, and the autograd effects of
the two phase bodies as a state machine over the two parameter groups.  The
loss derivatives and optimizer updates are abstract oracles; the shape of
each phase body follows the source: `zero_grad` of its own optimizer, one
`manual_backward` which accumulates the loss gradient into every parameter
group the loss graph reaches, then one optimizer step.  In the generator
phase the loss graph reaches both groups (the PCF distance is a function of
the discriminator parameters); in the discriminator phase the generation is
run under `torch.no_grad()`, so the loss graph reaches only the
discriminator parameters. -/

/-- One of the two optimization phases of a training step. -/
inductive TrainPhase where
  | genPhase : TrainPhase
  | discPhase : TrainPhase
deriving DecidableEq

/-- Control flow of `DiffPCFGANTrainer.training_step` as the list of executed
phases: one generator phase, then `D_steps_per_G_step` discriminator phases
unless the fixed-measure-discriminator flag disables them. -/
def trainingStepPhases (useFixedMeasureDisc : Bool) (dStepsPerGStep : ℕ) :
    List TrainPhase :=
  [TrainPhase.genPhase]
    ++ (if useFixedMeasureDisc then []
        else List.replicate dStepsPerGStep TrainPhase.discPhase)

/-- C4: every training step runs the generator phase exactly once and first,
and the discriminator phase exactly `D_steps_per_G_step` times, or zero times
when `use_fixed_measure_discriminator_pcfd` is set. -/
theorem training_step_phase_counts (useFixedMeasureDisc : Bool)
    (dStepsPerGStep : ℕ) :
    (trainingStepPhases useFixedMeasureDisc dStepsPerGStep).count
        TrainPhase.genPhase = 1 ∧
    (trainingStepPhases useFixedMeasureDisc dStepsPerGStep).count
        TrainPhase.discPhase
      = (if useFixedMeasureDisc then 0 else dStepsPerGStep) ∧
    (trainingStepPhases useFixedMeasureDisc dStepsPerGStep).head?
      = some TrainPhase.genPhase := by
  cases useFixedMeasureDisc <;>
    simp [trainingStepPhases, List.count_cons, List.count_replicate]

/-- Abstract derivatives of the two phase losses and abstract optimizer
updates.  `genLossGradG`/`genLossGradD` are the derivatives of the generator
phase's total loss with respect to the generator and discriminator parameter
groups; `discLossGradD` is the derivative of the discriminator phase's loss
with respect to the discriminator group (its generation runs under
`torch.no_grad()`, so the loss has no generator-side graph).  `stepG`/`stepD`
map parameters and accumulated gradient to updated parameters. -/
structure GradOracle where
  genLossGradG : ℚ → ℚ → ℚ
  genLossGradD : ℚ → ℚ → ℚ
  discLossGradD : ℚ → ℚ → ℚ
  stepG : ℚ → ℚ → ℚ
  stepD : ℚ → ℚ → ℚ

/-- Parameters and accumulated `.grad` buffers of the two groups. -/
structure TrainState where
  paramsG : ℚ
  paramsD : ℚ
  gradG : ℚ
  gradD : ℚ
deriving DecidableEq

/-- `_training_step_gen`: `optim_gen.zero_grad()`, one
`manual_backward(total_loss)` accumulating the loss gradient into both
parameter groups (the loss graph reaches the discriminator through the PCF
distance), then `optim_gen.step()` which updates only the generator group. -/
def trainingStepGenPhase (o : GradOracle) (s : TrainState) : TrainState :=
  let s1 : TrainState := { s with gradG := 0 }
  let s2 : TrainState :=
    { s1 with
      gradG := s1.gradG + o.genLossGradG s1.paramsG s1.paramsD
      gradD := s1.gradD + o.genLossGradD s1.paramsG s1.paramsD }
  { s2 with paramsG := o.stepG s2.paramsG s2.gradG }

/-- `_training_step_disc`: `optim_discr.zero_grad()`, one
`manual_backward(loss_disc)` whose graph reaches only the discriminator
group (generation runs under `torch.no_grad()`), then `optim_discr.step()`
which updates only the discriminator group. -/
def trainingStepDiscPhase (o : GradOracle) (s : TrainState) : TrainState :=
  let s1 : TrainState := { s with gradD := 0 }
  let s2 : TrainState :=
    { s1 with gradD := s1.gradD + o.discLossGradD s1.paramsG s1.paramsD }
  { s2 with paramsD := o.stepD s2.paramsD s2.gradD }

/-- C6 counterexample: the generator phase's backward pass does NOT produce
gradients only for its own group: run from a state with empty gradient
buffers and a loss whose derivative with respect to the discriminator
parameters is 1 (the PCF distance depends on them), it leaves a non-zero
gradient in the discriminator's buffer. -/
theorem gen_phase_backward_leaks_disc_grad :
    (trainingStepGenPhase
        ⟨fun _ _ => 0, fun _ _ => 1, fun _ _ => 0, fun p _ => p, fun p _ => p⟩
        ⟨0, 0, 0, 0⟩).gradD ≠ 0 := by
  simp [trainingStepGenPhase]

/-- C6 (amended): no gradient leak ever affects an update and no gradient
crosses the no-grad boundary: each phase updates only its own parameter
group, each optimizer step consumes exactly the gradient accumulated by its
own phase's backward pass after its own scoped `zero_grad` (independent of
any gradient left in the buffers by the other phase), and the discriminator
phase's backward produces no generator gradients — though the generator
phase's backward does also write into the discriminator's gradient buffer,
which the discriminator phase zeroes before use. -/
theorem phase_gradient_scoping (o : GradOracle) (s : TrainState) :
    (trainingStepGenPhase o s).paramsG
      = o.stepG s.paramsG (o.genLossGradG s.paramsG s.paramsD) ∧
    (trainingStepGenPhase o s).paramsD = s.paramsD ∧
    (trainingStepDiscPhase o s).paramsD
      = o.stepD s.paramsD (o.discLossGradD s.paramsG s.paramsD) ∧
    (trainingStepDiscPhase o s).paramsG = s.paramsG ∧
    (trainingStepDiscPhase o s).gradG = s.gradG := by
  refine ⟨?_, rfl, ?_, rfl, rfl⟩
  · simp [trainingStepGenPhase]
  · simp [trainingStepDiscPhase]

/-! ## Adversarial loss pipelines of the two phases -/

/-- `NUM_STEPS_DIFFUSION_2_CONSIDER`: module constant 8, incremented by one
for the zero prepended at the beginning of the sequences. -/
def numStepsDiffusion2Consider : ℕ := 8 + 1

/-- `t[:, :-1]` on a feature tensor of shape `(N, steps, F)`: drop the last
step-row. -/
def dropLastStepRow (x : Tensor3) : Tensor3 :=
  ⟨x.d0, x.d1 - 1, x.d2, x.entry⟩

/-- `t[:, :k]` on a feature tensor of shape `(N, steps, F)`: keep the first
`k` step-rows (all of them when fewer are present). -/
def truncSteps (k : ℕ) (x : Tensor3) : Tensor3 :=
  ⟨x.d0, min k x.d1, x.d2, x.entry⟩

/-- The adversarial (PCF-distance) term of `_training_step_gen`: both the
forward and backward trajectories are put through the feature transform, the
last step-row is dropped, the first `NUM_STEPS_DIFFUSION_2_CONSIDER`
step-rows are kept, and `distance_measure` is called with weighting
`lambda_y = 0`.  The discriminator distance is the abstract parameter
`dm`. -/
def genPhasePcfdLoss (dm : Tensor3 → Tensor3 → ℚ → ℚ)
    (diffusedTargets denoisedDiffusedTargets : Tensor4) : ℚ :=
  dm (truncSteps numStepsDiffusion2Consider
        (dropLastStepRow (flat_add_time_transpose_and_add_zero diffusedTargets)))
    (truncSteps numStepsDiffusion2Consider
        (dropLastStepRow
          (flat_add_time_transpose_and_add_zero denoisedDiffusedTargets)))
    0

/-- The loss of `_training_step_disc`: the negated `distance_measure` of the
identically transformed, dropped and truncated trajectories, with the same
weighting `lambda_y = 0` (the trajectories themselves are freshly sampled
under `torch.no_grad()`, see the gradient-scoping model). -/
def discPhaseLoss (dm : Tensor3 → Tensor3 → ℚ → ℚ)
    (diffusedTargets denoisedDiffusedTargets : Tensor4) : ℚ :=
  -(dm (truncSteps numStepsDiffusion2Consider
          (dropLastStepRow
            (flat_add_time_transpose_and_add_zero diffusedTargets)))
      (truncSteps numStepsDiffusion2Consider
          (dropLastStepRow
            (flat_add_time_transpose_and_add_zero denoisedDiffusedTargets)))
      0)

/-- C5: for every discriminator distance and every pair of sampled forward
and backward trajectories, the discriminator-phase loss is the exact
negation of the generator phase's adversarial term: both phases share the
same feature transform, the same drop of the last step-row, the same
truncation window of `NUM_STEPS_DIFFUSION_2_CONSIDER = 9` step-rows and the
same weighting parameter 0. -/
theorem disc_loss_negates_gen_loss (dm : Tensor3 → Tensor3 → ℚ → ℚ)
    (diffusedTargets denoisedDiffusedTargets : Tensor4) :
    discPhaseLoss dm diffusedTargets denoisedDiffusedTargets
      = -(genPhasePcfdLoss dm diffusedTargets denoisedDiffusedTargets) ∧
    numStepsDiffusion2Consider = 9 :=
  ⟨rfl, rfl⟩

/-! ## Score-matching loss -/

/-- `torch.randint(lo, hi, (1,))`: a uniform draw from `[lo, hi)`, modelled
by reducing a caller-supplied seed modulo the width of the interval. -/
def randint (lo hi seed : ℕ) : ℕ := lo + seed % (hi - lo)

/-- `torch.zeros_like(x)`. -/
def zerosLike (x : Tensor3) : Tensor3 := ⟨x.d0, x.d1, x.d2, fun _ _ _ => 0⟩

/-- `torch.nn.MSELoss()(a, b)`: mean of the squared entrywise differences. -/
def mseLoss (a b : Tensor3) : ℚ :=
  (∑ n ∈ Finset.range a.d0, ∑ l ∈ Finset.range a.d1, ∑ d ∈ Finset.range a.d2,
      (a.entry n l d - b.entry n l d) ^ 2)
    / ((a.d0 : ℚ) * (a.d1 : ℚ) * (a.d2 : ℚ))

/-- `mean + std * noise`: the input perturbed by the forward kernel. -/
def perturbedInput (std : ℚ) (mean noise : Tensor3) : Tensor3 :=
  ⟨mean.d0, mean.d1, mean.d2,
    fun n l d => mean.entry n l d + std * noise.entry n l d⟩

/-- `-noise / std`: the denoising score-matching regression target. -/
def negNoiseOverStd (std : ℚ) (noise : Tensor3) : Tensor3 :=
  ⟨noise.d0, noise.d1, noise.d2, fun n l d => -(noise.entry n l d) / std⟩

/-- `DiffPCFGANTrainer._compute_score_matching_loss`: draw a diffusion step
from `randint(1, num_diffusion_steps + 1)`, read the diffusion coefficient
at that step (the drift/diffusion collaborator is queried on a zero tensor),
perturb the targets through the kernel's mean and std with fresh noise,
query the score network on the perturbed input, and return the squared
diffusion coefficient times the MSE against `-noise / std`.  The diffusion
process internals and the score network are abstract parameters, and the
`randn_like` draw is the caller-supplied `noise` tensor. -/
def compute_score_matching_loss (numDiffusionSteps seed : ℕ)
    (driftAndDiffusion : Tensor3 → ℕ → ℚ × ℚ)
    (perturbationKernel : Tensor3 → ℕ → Tensor3 × ℚ)
    (scoreNetwork : Tensor3 → ℕ → Tensor3)
    (targets noise : Tensor3) : ℚ :=
  let t := randint 1 (numDiffusionSteps + 1) seed
  let diffusion := (driftAndDiffusion (zerosLike targets) t).2
  let mean := (perturbationKernel targets t).1
  let std := (perturbationKernel targets t).2
  let predScore := scoreNetwork (perturbedInput std mean noise) t
  diffusion * diffusion * mseLoss predScore (negNoiseOverStd std noise)

/-- C7: the random diffusion step is drawn uniformly from the integers
`[1, num_diffusion_steps]` — never 0, so the `std ≈ 0` boundary of the
schedule is unreachable — and the returned loss is the squared diffusion
coefficient at that step times the MSE between the score network's
prediction on `mean + std * noise` and the target `-noise / std`. -/
theorem score_matching_loss_spec (numDiffusionSteps seed : ℕ)
    (driftAndDiffusion : Tensor3 → ℕ → ℚ × ℚ)
    (perturbationKernel : Tensor3 → ℕ → Tensor3 × ℚ)
    (scoreNetwork : Tensor3 → ℕ → Tensor3)
    (targets noise : Tensor3)
    (hT : 1 ≤ numDiffusionSteps) :
    (1 ≤ randint 1 (numDiffusionSteps + 1) seed ∧
      randint 1 (numDiffusionSteps + 1) seed ≤ numDiffusionSteps) ∧
    compute_score_matching_loss numDiffusionSteps seed driftAndDiffusion
        perturbationKernel scoreNetwork targets noise
      = ((driftAndDiffusion (zerosLike targets)
            (randint 1 (numDiffusionSteps + 1) seed)).2) ^ 2
          * mseLoss
              (scoreNetwork
                (perturbedInput
                  ((perturbationKernel targets
                      (randint 1 (numDiffusionSteps + 1) seed)).2)
                  ((perturbationKernel targets
                      (randint 1 (numDiffusionSteps + 1) seed)).1)
                  noise)
                (randint 1 (numDiffusionSteps + 1) seed))
              (negNoiseOverStd
                ((perturbationKernel targets
                    (randint 1 (numDiffusionSteps + 1) seed)).2)
                noise) := by
  constructor
  · have h := Nat.mod_lt seed (show 0 < numDiffusionSteps by omega)
    unfold randint
    simp only [Nat.add_sub_cancel]
    omega
  · unfold compute_score_matching_loss
    rw [pow_two]

/-- Concrete collaborators for the score-matching witness. -/
def sampleDriftDiffusion : Tensor3 → ℕ → ℚ × ℚ := fun _ t => (0, (t : ℚ))

/-- Concrete perturbation kernel for the score-matching witness. -/
def sampleKernel : Tensor3 → ℕ → Tensor3 × ℚ :=
  fun x t => (x, (1 : ℚ) / ((t : ℚ) + 1))

/-- Concrete score network for the score-matching witness. -/
def sampleScoreNet : Tensor3 → ℕ → Tensor3 := fun x _ => x

/-- Concrete targets tensor for the score-matching witness. -/
def sampleTargets : Tensor3 := ⟨1, 1, 1, fun _ _ _ => 1⟩

/-- Concrete noise tensor for the score-matching witness. -/
def sampleNoise : Tensor3 := ⟨1, 1, 1, fun _ _ _ => 1⟩

/-- Witness for `score_matching_loss_spec` with two diffusion steps and
seed 4. -/
theorem score_matching_loss_spec_witness :
    1 ≤ 2 ∧
    ((1 ≤ randint 1 (2 + 1) 4 ∧ randint 1 (2 + 1) 4 ≤ 2) ∧
    compute_score_matching_loss 2 4 sampleDriftDiffusion sampleKernel
        sampleScoreNet sampleTargets sampleNoise
      = ((sampleDriftDiffusion (zerosLike sampleTargets)
            (randint 1 (2 + 1) 4)).2) ^ 2
          * mseLoss
              (sampleScoreNet
                (perturbedInput
                  ((sampleKernel sampleTargets (randint 1 (2 + 1) 4)).2)
                  ((sampleKernel sampleTargets (randint 1 (2 + 1) 4)).1)
                  sampleNoise)
                (randint 1 (2 + 1) 4))
              (negNoiseOverStd
                ((sampleKernel sampleTargets (randint 1 (2 + 1) 4)).2)
                sampleNoise)) :=
  ⟨by decide,
    score_matching_loss_spec 2 4 sampleDriftDiffusion sampleKernel
      sampleScoreNet sampleTargets sampleNoise (by decide)⟩

/-! ## Forward path with non-diffused channels -/

/-- `mask_where_diffuse`: all channels participate in diffusion except the
listed indices, which are set to `False`. -/
def maskOf (indicesNotDiffuse : List ℕ) : ℕ → Bool :=
  fun d => decide (d ∉ indicesNotDiffuse)

/-- The ascending list of channel indices selected by a boolean mask, as in
`x[:, :, mask]`. -/
def maskedIndices (mask : ℕ → Bool) (dim : ℕ) : List ℕ :=
  (List.range dim).filter mask

/-- `x[:, :, mask]`: keep only the masked-in channels, in ascending order. -/
def maskSelect (x : Tensor3) (mask : ℕ → Bool) : Tensor3 :=
  ⟨x.d0, x.d1, (maskedIndices mask x.d2).length,
    fun n l m => x.entry n l ((maskedIndices mask x.d2).getD m 0)⟩

/-- Position of channel `d` among the masked-in channels: the number of
masked-in channels below `d`. -/
def maskRank (mask : ℕ → Bool) (d : ℕ) : ℕ :=
  ((List.range d).filter mask).length

/-- `starting_data.clone().unsqueeze(0).repeat(steps, 1, 1, 1)`. -/
def repeatSteps (steps : ℕ) (x : Tensor3) : Tensor4 :=
  ⟨steps, x.d0, x.d1, x.d2, fun _ n l d => x.entry n l d⟩

/-- `base[:, :, :, mask] = vals`: write `vals` into the masked-in channels
(matched up in ascending order), leaving the masked-out channels of `base`
unchanged. -/
def maskAssign (base : Tensor4) (mask : ℕ → Bool) (vals : Tensor4) : Tensor4 :=
  ⟨base.d0, base.d1, base.d2, base.d3,
    fun s n l d =>
      if mask d then vals.entry s n l (maskRank mask d)
      else base.entry s n l d⟩

/-- `DiffPCFGANTrainer._get_forward_path`: repeat the rank-3 input
`num_diffusion_steps + 1` times along a new leading axis, then overwrite the
channels that participate in diffusion with the diffusion process's forward
sample of the restriction of the input to those channels.  `forward_sample`
is the abstract collaborator. -/
def get_forward_path (numDiffusionSteps : ℕ)
    (forwardSample : Tensor3 → Tensor4) (startingData : Tensor3)
    (indicesNotDiffuse : List ℕ) : Tensor4 :=
  let mask := maskOf indicesNotDiffuse
  maskAssign (repeatSteps (numDiffusionSteps + 1) startingData) mask
    (forwardSample (maskSelect startingData mask))

/-- C8: the forward path has shape `(num_diffusion_steps + 1, N, L, D)`; at
every diffusion step the channels at the non-diffused indices equal the
corresponding input channels unchanged, and every other channel carries the
forward sample of the masked-in restriction of the input. -/
theorem forward_path_mask_frame (numDiffusionSteps : ℕ)
    (forwardSample : Tensor3 → Tensor4) (x : Tensor3) (nd : List ℕ)
    (s n l d : ℕ) :
    (get_forward_path numDiffusionSteps forwardSample x nd).d0
      = numDiffusionSteps + 1 ∧
    (get_forward_path numDiffusionSteps forwardSample x nd).d1 = x.d0 ∧
    (get_forward_path numDiffusionSteps forwardSample x nd).d2 = x.d1 ∧
    (get_forward_path numDiffusionSteps forwardSample x nd).d3 = x.d2 ∧
    (d ∈ nd →
      (get_forward_path numDiffusionSteps forwardSample x nd).entry s n l d
        = x.entry n l d) ∧
    (d ∉ nd →
      (get_forward_path numDiffusionSteps forwardSample x nd).entry s n l d
        = (forwardSample (maskSelect x (maskOf nd))).entry s n l
            (maskRank (maskOf nd) d)) := by
  refine ⟨rfl, rfl, rfl, rfl, ?_, ?_⟩
  · intro h
    simp [get_forward_path, maskAssign, repeatSteps, maskOf, h]
  · intro h
    simp [get_forward_path, maskAssign, repeatSteps, maskOf, h]

/-- Concrete starting data of shape `(1, 1, 2)` for the forward-path
witness. -/
def sampleStart : Tensor3 := ⟨1, 1, 2, fun _ _ d => (d : ℚ)⟩

/-- Concrete forward sampler for the forward-path witness: two diffusion
states that shift the input by the step index. -/
def sampleForward : Tensor3 → Tensor4 :=
  fun t => ⟨2, t.d0, t.d1, t.d2, fun s n l m => t.entry n l m + (s : ℚ)⟩

/-- Witness for `forward_path_mask_frame` with channel 0 excluded from
diffusion. -/
theorem forward_path_mask_frame_witness :
    (get_forward_path 1 sampleForward sampleStart [0]).d0 = 1 + 1 ∧
    (get_forward_path 1 sampleForward sampleStart [0]).d1 = sampleStart.d0 ∧
    (get_forward_path 1 sampleForward sampleStart [0]).d2 = sampleStart.d1 ∧
    (get_forward_path 1 sampleForward sampleStart [0]).d3 = sampleStart.d2 ∧
    ((0 : ℕ) ∈ [0] →
      (get_forward_path 1 sampleForward sampleStart [0]).entry 1 0 0 0
        = sampleStart.entry 0 0 0) ∧
    ((0 : ℕ) ∉ [0] →
      (get_forward_path 1 sampleForward sampleStart [0]).entry 1 0 0 0
        = (sampleForward (maskSelect sampleStart (maskOf [0]))).entry 1 0 0
            (maskRank (maskOf [0]) 0)) :=
  forward_path_mask_frame 1 sampleForward sampleStart [0] 1 0 0 0

end PcfDiffusion
